import Mathlib

/-!
Verification development for the socialia deferred-job scheduler and its
draft-file reconciliation logic (`scheduler.py`, `org.py`, `org_files.py`).

Modelling conventions:
* Naive Python `datetime` values are represented as `Int` minutes since
  1970-01-01 00:00 (the code only ever works at minute precision); the
  broken-down view used by `parse_schedule_time` is the `Civil` structure.
  The calendar helpers are valid for years from 1970 on, which covers every
  date the program manipulates.
* The persisted job-store file is an explicit `Store` (list of jobs) value
  threaded through each operation; `load_schedule`/store-returns model
  `_load_schedule`/`_save_schedule`.
* `random.randint` outcomes and `uuid` ids are passed as explicit arguments
  (`draw`, `new_id`); theorems that speak about random jitter quantify over
  every draw in the range the code samples from.
* Platform clients are external collaborators: a client call is a function
  `String → String → List (String × Option String) → Except String PostResult`
  where `Except.error` models a raised exception (including the
  unknown-platform `ValueError` of `get_client`).
* Filesystem facts (`Path.exists`, `is_dir`) are oracle functions passed in.
-/

/-- Broken-down date-time, minute precision: models the components of a
Python `datetime` object. -/
structure Civil where
  year : Nat
  month : Nat
  day : Nat
  hour : Nat
  minute : Nat
deriving Repr, DecidableEq

def isLeap (y : Nat) : Bool :=
  (y % 4 == 0 && y % 100 != 0) || y % 400 == 0

def daysInMonth (y m : Nat) : Nat :=
  if m == 2 then (if isLeap y then 29 else 28)
  else if m == 4 || m == 6 || m == 9 || m == 11 then 30
  else 31

def daysInYear (y : Nat) : Nat := if isLeap y then 366 else 365

/-- Days contained in the `n` calendar years starting at 1970. -/
def yearSpanDays : Nat → Nat
  | 0 => 0
  | n + 1 => yearSpanDays n + daysInYear (1970 + n)

/-- Days contained in the months of year `y` strictly before month `m`
(months are 1-based). -/
def monthSpanDays (y : Nat) : Nat → Nat
  | 0 => 0
  | 1 => 0
  | m + 1 => monthSpanDays y m + daysInMonth y m

def daysFromEpoch (y m d : Nat) : Nat :=
  yearSpanDays (y - 1970) + monthSpanDays y m + (d - 1)

/-- Minutes since the epoch of a broken-down date-time. -/
def civilToMin (c : Civil) : Int :=
  (daysFromEpoch c.year c.month c.day : Int) * 1440 + c.hour * 60 + c.minute

def yearLoop : Nat → Nat → Nat → Nat × Nat
  | 0, y, d => (y, d)
  | fuel + 1, y, d =>
    if daysInYear y ≤ d then yearLoop fuel (y + 1) (d - daysInYear y) else (y, d)

def monthLoop : Nat → Nat → Nat → Nat → Nat × Nat
  | 0, _, m, d => (m, d)
  | fuel + 1, y, m, d =>
    if daysInMonth y m ≤ d then monthLoop fuel y (m + 1) (d - daysInMonth y m) else (m, d)

/-- Broken-down view of a minutes-since-epoch timestamp (for timestamps at or
after 1970-01-01, which is every timestamp the program handles). -/
def minToCivil (t : Int) : Civil :=
  let total := t.toNat
  let dayCount := total / 1440
  let rem := total % 1440
  let yd := yearLoop dayCount 1970 dayCount
  let md := monthLoop 12 yd.1 1 yd.2
  ⟨yd.1, md.1, md.2 + 1, rem / 60, rem % 60⟩

/- Character/string helpers (all structurally recursive so that concrete
counterexamples evaluate inside the kernel). -/

def isDig (c : Char) : Bool := 48 ≤ c.toNat && c.toNat ≤ 57

def isWs (c : Char) : Bool :=
  c == ' ' || c == '\t' || c == '\n' || c == '\r' || c.toNat == 11 || c.toNat == 12

def isWordChar (c : Char) : Bool :=
  isDig c || (65 ≤ c.toNat && c.toNat ≤ 90) || (97 ≤ c.toNat && c.toNat ≤ 122) || c == '_'

def digitsVal (l : List Char) : Nat :=
  l.foldl (fun a c => a * 10 + (c.toNat - 48)) 0

def allDigits (l : List Char) : Bool := l.all isDig

/-- Model of Python `int(s)` restricted to the shapes the scheduler feeds it:
an optional leading minus sign followed by decimal digits. -/
def parseIntChars (l : List Char) : Option Int :=
  match l with
  | '-' :: rest =>
    if rest ≠ [] && allDigits rest then some (-(digitsVal rest : Int)) else none
  | _ =>
    if l ≠ [] && allDigits l then some ((digitsVal l : Int)) else none

def splitOnChar (c : Char) : List Char → List (List Char)
  | [] => [[]]
  | x :: rest =>
    let r := splitOnChar c rest
    if x == c then [] :: r
    else
      match r with
      | h :: t => (x :: h) :: t
      | [] => [[x]]

def trimLeftWs (l : List Char) : List Char := l.dropWhile isWs
def trimRightWs (l : List Char) : List Char := (l.reverse.dropWhile isWs).reverse
def stripChars (l : List Char) : List Char := trimRightWs (trimLeftWs l)

def containsSub (pat : List Char) : List Char → Bool
  | [] => pat.isPrefixOf ([] : List Char)
  | c :: rest => pat.isPrefixOf (c :: rest) || containsSub pat rest

/-- Model of Python `str.replace(old, new, 1)`: replace the first (leftmost)
occurrence of `pat`, leaving the string unchanged when `pat` does not occur. -/
def replaceFirstL (l pat new : List Char) : List Char :=
  if pat.isPrefixOf l then new ++ l.drop pat.length
  else
    match l with
    | [] => []
    | c :: rest => c :: replaceFirstL rest pat new

def replaceFirstStr (s pat new : String) : String :=
  String.mk (replaceFirstL s.data pat.data new.data)

def digitChar (d : Nat) : Char := Char.ofNat (48 + d)

/-- Zero-padded two-digit decimal rendering (strftime `%m`/`%d`/`%H`/`%M`). -/
def pad2 (n : Nat) : String := String.mk [digitChar (n / 10 % 10), digitChar (n % 10)]

/-- Zero-padded four-digit decimal rendering (strftime `%Y` for the years in
scope). -/
def pad4 (n : Nat) : String :=
  String.mk [digitChar (n / 1000 % 10), digitChar (n / 100 % 10),
             digitChar (n / 10 % 10), digitChar (n % 10)]

/-- Model of `dt.strftime("%Y-%m-%d %H:%M")`. -/
def strftimeFull (t : Int) : String :=
  let c := minToCivil t
  pad4 c.year ++ "-" ++ pad2 c.month ++ "-" ++ pad2 c.day ++ " " ++
    pad2 c.hour ++ ":" ++ pad2 c.minute

/-- Model of `datetime.strptime(s, "%H:%M")`: hour and minute fields of one or
two digits each, within range. -/
def strptimeHM (l : List Char) : Option (Nat × Nat) :=
  match splitOnChar ':' l with
  | [h, m] =>
    if h ≠ [] && h.length ≤ 2 && allDigits h && m ≠ [] && m.length ≤ 2 && allDigits m then
      let hh := digitsVal h
      let mm := digitsVal m
      if hh ≤ 23 && mm ≤ 59 then some (hh, mm) else none
    else none
  | _ => none

/-- Model of `datetime.strptime(s, "%Y-%m-%d %H:%M")`, including the range
validation strptime performs on each field. -/
def strptimeFull (l : List Char) : Option Civil :=
  match splitOnChar ' ' l with
  | [datePart, timePart] =>
    match splitOnChar '-' datePart, strptimeHM timePart with
    | [ys, ms, ds], some hm =>
      if ys.length == 4 && allDigits ys && ms ≠ [] && ms.length ≤ 2 && allDigits ms
          && ds ≠ [] && ds.length ≤ 2 && allDigits ds then
        let y := digitsVal ys
        let m := digitsVal ms
        let d := digitsVal ds
        if 1 ≤ m && m ≤ 12 && 1 ≤ d && d ≤ daysInMonth y m then
          some ⟨y, m, d, hm.1, hm.2⟩
        else none
      else none
    | _, _ => none
  | _ => none

/-- Model of `parse_schedule_time(time_str)` from `scheduler.py`.  `now` is the
current time; `Except.error` models a raised `ValueError`. -/
def parse_schedule_time (time_str : String) (now : Int) : Except String Int :=
  let chars := time_str.data
  match chars with
  | '+' :: rest =>
    -- amount = int(time_str[1:-1]); unit = time_str[-1]
    match parseIntChars rest.dropLast with
    | none => .error ("invalid literal for int: " ++ String.mk rest.dropLast)
    | some amount =>
      match chars.getLast? with
      | some 'h' => .ok (now + amount * 60)
      | some 'm' => .ok (now + amount)
      | some u => .error ("Unknown time unit: " ++ String.mk [u] ++ " (use 'h' or 'm')")
      | none => .error "Unknown time unit"
  | _ =>
    if chars.contains '-' && chars.contains ' ' then
      match strptimeFull chars with
      | some c => .ok (civilToMin c)
      | none => .error ("time data '" ++ time_str ++ "' does not match format")
    else if chars.contains ':' && !(chars.contains '-') then
      match strptimeHM chars with
      | none => .error ("time data '" ++ time_str ++ "' does not match format")
      | some hm =>
        let n := minToCivil now
        let target := civilToMin ⟨n.year, n.month, n.day, hm.1, hm.2⟩
        if target ≤ now then
          -- target = target.replace(day=now.day + 1): raises when the
          -- incremented day is not a valid day of the current month
          if n.day + 1 ≤ daysInMonth n.year n.month then
            .ok (civilToMin ⟨n.year, n.month, n.day + 1, hm.1, hm.2⟩)
          else .error "day is out of range for month"
        else .ok target
    else .error ("Cannot parse time: " ++ time_str)

/-- Model of `add_human_fluctuation`: `draw` is the value returned by
`random.randint` (in `[0, max_minutes]` for the biased cases, in
`[-max_minutes, max_minutes]` for bias `"none"`). -/
def add_human_fluctuation (dt : Int) (max_minutes : Int) (bias : String) (draw : Int) : Int :=
  if bias == "early" then dt - draw
  else if bias == "late" then dt + draw
  else dt + draw

deriving instance DecidableEq for Except

/-- A platform client response (`post(text, **kwargs) -> {success, id?, url?, error?}`). -/
structure PostResult where
  success : Bool
  pid : Option String := none
  purl : Option String := none
  perror : Option String := none
deriving Repr, DecidableEq

/-- A persisted job record of the schedule store (`scheduled.json`).  Optional
dictionary keys are `Option` fields with `none` meaning "key absent". -/
structure Job where
  id : String
  platform : String
  text : String
  scheduled_for : Int
  created_at : Int
  status : String
  kwargs : List (String × Option String)
  source_file : Option String := none
  headline : Option String := none
  original_time : Option Int := none
  fluctuation_applied : Option Int := none
  cancel_reason : Option String := none
  result : Option PostResult := none
  error_msg : Option String := none
  executed_at : Option Int := none
deriving Repr, DecidableEq

/-- The persisted store contents (the JSON array held by `SCHEDULE_FILE`). -/
abbrev Store := List Job

/-- Model of `_load_schedule`: reads the persisted list verbatim.  It performs
no sweep of any kind. -/
def load_schedule (st : Store) : List Job := st

/-- Truthiness of an optional string kwarg (`None` and `""` are falsy). -/
def truthyStr : Option String → Bool
  | some s => s ≠ ""
  | none => false

/-- A pending job whose `source_file` is set but missing on disk
(`src and not Path(src).exists()`). -/
def isOrphan (fileExists : String → Bool) (j : Job) : Bool :=
  j.status == "pending" &&
    (match j.source_file with
     | some src => src ≠ "" && !(fileExists src)
     | none => false)

/-- Model of `_cancel_orphaned_jobs`: marks every orphaned pending job
cancelled with reason `source_file_missing`; the flag records whether any job
was cancelled. -/
def cancel_orphaned_jobs (fileExists : String → Bool) (jobs : List Job) :
    List Job × Bool :=
  (jobs.map (fun j =>
     if isOrphan fileExists j then
       { j with status := "cancelled", cancel_reason := some "source_file_missing" }
     else j),
   jobs.any (isOrphan fileExists))

def insertByTime (j : Job) : List Job → List Job
  | [] => [j]
  | k :: rest =>
    if k.scheduled_for ≤ j.scheduled_for then k :: insertByTime j rest
    else j :: k :: rest

/-- Stable sort by `scheduled_for` ascending (Python `sorted` with the
`scheduled_for` key; isoformat string order coincides with chronological
order). -/
def sortByTime : List Job → List Job
  | [] => []
  | j :: rest => insertByTime j (sortByTime rest)

/-- Model of `list_scheduled(full)`: loads, sweeps orphaned jobs (persisting
the sweep when anything changed), and returns pending jobs (or all jobs when
`full`) sorted by time.  Returns the listed jobs and the resulting persisted
store. -/
def list_scheduled (fileExists : String → Bool) (full : Bool) (st : Store) :
    List Job × Store :=
  let jobs := load_schedule st
  let swept := cancel_orphaned_jobs fileExists jobs
  let st2 := if swept.2 then swept.1 else st
  if full then (sortByTime swept.1, st2)
  else (sortByTime (swept.1.filter (fun j => j.status == "pending")), st2)

structure CancelResult where
  success : Bool
  cancelled : Option String := none
  error_msg : Option String := none
deriving Repr, DecidableEq

/-- Flip the first job whose `id` matches to `cancelled`; `none` when no job
matches. -/
def cancelFirst (job_id : String) : List Job → Option (List Job)
  | [] => none
  | j :: rest =>
    if j.id == job_id then some ({ j with status := "cancelled" } :: rest)
    else
      match cancelFirst job_id rest with
      | some rest2 => some (j :: rest2)
      | none => none

/-- Model of `cancel_scheduled(job_id)`.  Note the source checks only the id:
any matching job — whatever its status — is flipped to `cancelled`. -/
def cancel_scheduled (job_id : String) (st : Store) : CancelResult × Store :=
  match cancelFirst job_id (load_schedule st) with
  | some st2 => ({ success := true, cancelled := some job_id }, st2)
  | none => ({ success := false, error_msg := some ("Job not found: " ++ job_id) }, st)

/-- Model of `update_source_path(old_path, new_path)`: rewrites `source_file`
on every pending job matching `old_path`; returns the update count and the
resulting store. -/
def update_source_path (old_path new_path : String) (st : Store) : Nat × Store :=
  let jobs := load_schedule st
  let hit := fun (j : Job) => j.source_file == some old_path && j.status == "pending"
  let updated := (jobs.filter hit).length
  let jobs2 := jobs.map (fun j => if hit j then { j with source_file := some new_path } else j)
  (updated, if 0 < updated then jobs2 else st)

structure ScheduleResult where
  success : Bool
  job_id : Option String := none
  scheduled_for : Option Int := none
  original_time : Option Int := none
  fluctuation_minutes : Option Int := none
  error_msg : Option String := none
deriving Repr, DecidableEq

/-- Model of `kwargs.pop(key, None)`: the value found under `key` (itself an
`Option String`, since a present key may hold `None`) and the dictionary with
that key removed. -/
def popKw (key : String) (kwargs : List (String × Option String)) :
    Option String × List (String × Option String) :=
  match kwargs.find? (fun p => p.1 == key) with
  | some p => (p.2, kwargs.filter (fun q => q.1 ≠ key))
  | none => (none, kwargs)

/-- Model of `schedule_post`.  `now` is the current time, `new_id` the
generated uuid prefix, `draw` the `random.randint` outcome used when jitter is
applied.  Returns the result dictionary and the persisted store. -/
def schedule_post (platform text schedule_time : String) (fluctuation : Int)
    (fluctuation_bias : String) (kwargs : List (String × Option String))
    (now : Int) (new_id : String) (draw : Int) (st : Store) :
    ScheduleResult × Store :=
  match parse_schedule_time schedule_time now with
  | .error e => ({ success := false, error_msg := some e }, st)
  | .ok parsed_dt =>
    let original_dt := parsed_dt
    let scheduled_dt :=
      if 0 < fluctuation then
        add_human_fluctuation parsed_dt fluctuation fluctuation_bias draw
      else parsed_dt
    let sfPop := popKw "source_file" kwargs
    let hlPop := popKw "headline" sfPop.2
    let job : Job :=
      { id := new_id, platform := platform, text := text,
        scheduled_for := scheduled_dt, created_at := now, status := "pending",
        kwargs := hlPop.2,
        source_file := if truthyStr sfPop.1 then sfPop.1 else none,
        headline := if truthyStr hlPop.1 then hlPop.1 else none,
        original_time := if 0 < fluctuation then some original_dt else none,
        fluctuation_applied := if 0 < fluctuation then some (scheduled_dt - original_dt) else none }
    let st2 := load_schedule st ++ [job]
    ({ success := true, job_id := some new_id, scheduled_for := some scheduled_dt,
       original_time := if 0 < fluctuation then some original_dt else none,
       fluctuation_minutes := if 0 < fluctuation then some (scheduled_dt - original_dt) else none },
     st2)

structure JobResult where
  job_id : String
  success : Bool
  error_msg : Option String := none
deriving Repr, DecidableEq

/-- One due-job execution step of `run_due_jobs`: the `try` block around
`get_client`/`client.post`.  `clientPost` models the external platform client;
`Except.error` is a raised exception (caught here, never propagated). -/
def execute_job
    (clientPost : String → String → List (String × Option String) → Except String PostResult)
    (now : Int) (j : Job) : Job × JobResult :=
  match clientPost j.platform j.text j.kwargs with
  | .ok r =>
    ({ j with status := if r.success then "completed" else "failed",
              result := some r, executed_at := some now },
     { job_id := j.id, success := r.success, error_msg := r.perror })
  | .error e =>
    ({ j with status := "failed", error_msg := some e },
     { job_id := j.id, success := false, error_msg := some e })

/-- Order-preserving first-occurrence deduplication (stands in for the
`completed_files` Python `set`; iteration order of that set is arbitrary, and
nothing proved here depends on it). -/
def dedupFirstAux : List String → List String → List String
  | [], _ => []
  | x :: rest, seen =>
    if seen.contains x then dedupFirstAux rest seen
    else x :: dedupFirstAux rest (x :: seen)

def dedupFirst (l : List String) : List String := dedupFirstAux l []

/-- The post-batch block of `run_due_jobs`: for a source file whose jobs are
all terminal, move the file to `posted/` (`mover` models `move_to_posted`
together with the filesystem) and rewrite the jobs' `source_file`. -/
def moveCompletedFile (fileExists : String → Bool) (mover : String → Option String)
    (acc : Store) (sf : String) : Store :=
  let all_done := (acc.filter (fun j => j.source_file == some sf)).all
      (fun j => j.status == "completed" || j.status == "cancelled")
  if all_done then
    if fileExists sf then
      match mover sf with
      | some np =>
        if np ≠ sf then
          acc.map (fun j => if j.source_file == some sf then { j with source_file := some np } else j)
        else acc
      | none => acc
    else acc
  else acc

/-- Model of `run_due_jobs()`.  Returns the per-job results, the persisted
store after the batch, and — as instrumentation — the ids of the jobs for
which a platform client was invoked.  The function is total: client errors
surface only as `failed` statuses, never as exceptions. -/
def run_due_jobs
    (clientPost : String → String → List (String × Option String) → Except String PostResult)
    (fileExists : String → Bool) (mover : String → Option String)
    (now : Int) (st : Store) : List JobResult × Store × List String :=
  let jobs := load_schedule st
  let due := fun (j : Job) => j.status == "pending" && decide (j.scheduled_for ≤ now)
  let jobs2 := jobs.map (fun j => if due j then (execute_job clientPost now j).1 else j)
  let results := jobs.filterMap (fun j =>
      if due j then some (execute_job clientPost now j).2 else none)
  let calls := jobs.filterMap (fun j => if due j then some j.id else none)
  let completed_files := dedupFirst (jobs.filterMap (fun j =>
      if due j && ((execute_job clientPost now j).1.status == "completed") then
        match j.source_file with
        | some sf => if sf ≠ "" then some sf else none
        | none => none
      else none))
  let finalStore := completed_files.foldl (moveCompletedFile fileExists mover) jobs2
  (results, finalStore, calls)

/-- A social-media draft parsed from an org file (`OrgDraft` in `org.py`). -/
structure OrgDraft where
  headline : String
  status : String
  priority : Option Char
  scheduled : Option Int
  platform : String
  draft_id : Option String
  content : String
  line_number : Nat
deriving Repr, DecidableEq

def OrgDraft.is_pending (d : OrgDraft) : Bool := d.status == "TODO"

def OrgDraft.is_due (d : OrgDraft) (now : Int) : Bool :=
  match d.scheduled with
  | none => false
  | some t => d.is_pending && decide (t ≤ now)

namespace OrgParser

/-- Attempt the keyword alternation `(TODO|DONE|CANCELLED)?` at the start of
`l`. -/
def kwSplit (l : List Char) : Option String × List Char :=
  if "TODO".data.isPrefixOf l then (some "TODO", l.drop 4)
  else if "DONE".data.isPrefixOf l then (some "DONE", l.drop 4)
  else if "CANCELLED".data.isPrefixOf l then (some "CANCELLED", l.drop 9)
  else (none, l)

/-- Attempt the optional priority cookie `(?:\[#([ABC])\])?`. -/
def priSplit (l : List Char) : Option Char × List Char :=
  match l with
  | '[' :: '#' :: c :: ']' :: rest =>
    if c == 'A' || c == 'B' || c == 'C' then (some c, rest) else (none, l)
  | _ => (none, l)

/-- Model of `HEADLINE_RE.match`: a heading needs two or more leading `*`,
at least one whitespace character, then an optional status keyword, an
optional priority cookie, and a non-empty headline (trailing whitespace
stripped).  When consuming the keyword or the cookie would leave the headline
empty, the regex backtracks and they are read as headline text instead. -/
def parseHeadline (line : String) : Option (Option String × Option Char × String) :=
  let l := line.data
  let stars := l.takeWhile (fun c => c == '*')
  let rest := l.dropWhile (fun c => c == '*')
  if stars.length < 2 then none
  else if !(match rest.head? with | some c => isWs c | none => false) then none
  else
    let r1 := rest.dropWhile isWs
    let kw := kwSplit r1
    let r3 := kw.2.dropWhile isWs
    let pri := priSplit r3
    let r5 := pri.2.dropWhile isWs
    let hl := trimRightWs r5
    if hl ≠ [] then some (kw.1, pri.1, String.mk hl)
    else
      let hl2 := trimRightWs r3
      if hl2 ≠ [] then some (kw.1, none, String.mk hl2)
      else
        let hl3 := trimRightWs r1
        if hl3 ≠ [] then some (none, none, String.mk hl3)
        else none

/-- Parse exactly `\d\d:\d\d` at the start of `l`, returning the remainder. -/
def timeAt (l : List Char) : Option (Nat × Nat × List Char) :=
  match l with
  | a :: b :: ':' :: c :: d :: rest =>
    if isDig a && isDig b && isDig c && isDig d then
      some (digitsVal [a, b], digitsVal [c, d], rest)
    else none
  | _ => none

/-- Parse exactly `\d{4}-\d\d-\d\d` at the start of `l`. -/
def dateAt (l : List Char) : Option (Nat × Nat × Nat × List Char) :=
  match l with
  | y1 :: y2 :: y3 :: y4 :: '-' :: m1 :: m2 :: '-' :: d1 :: d2 :: rest =>
    if isDig y1 && isDig y2 && isDig y3 && isDig y4 && isDig m1 && isDig m2
        && isDig d1 && isDig d2 then
      some (digitsVal [y1, y2, y3, y4], digitsVal [m1, m2], digitsVal [d1, d2], rest)
    else none
  | _ => none

/-- After the date of a `SCHEDULED: <...>` stamp: an optional weekday word, an
optional `HH:MM` time, then the closing `>` (`(?:\s+\w+)?(?:\s+(\d{2}:\d{2}))?>`). -/
def schedTail (l : List Char) : Option (Option (Nat × Nat)) :=
  match l with
  | '>' :: _ => some none
  | _ =>
    let ws := l.takeWhile isWs
    let r := l.dropWhile isWs
    if ws = [] then none
    else
      match timeAt r with
      | some tm =>
        (match tm.2.2 with
         | '>' :: _ => some (some (tm.1, tm.2.1))
         | _ => none)
      | none =>
        let w := r.takeWhile isWordChar
        let r2 := r.dropWhile isWordChar
        if w = [] then none
        else
          match r2 with
          | '>' :: _ => some none
          | _ =>
            let ws2 := r2.takeWhile isWs
            let r3 := r2.dropWhile isWs
            if ws2 = [] then none
            else
              match timeAt r3 with
              | some tm =>
                (match tm.2.2 with
                 | '>' :: _ => some (some (tm.1, tm.2.1))
                 | _ => none)
              | none => none

/-- Attempt the `SCHEDULED_RE` pattern at the start of `l`.  The matched date
and time are combined through `strptime("%Y-%m-%d %H:%M")` (time defaulting to
`00:00`); the model only accepts calendar-valid stamps — on a regex-matching
but calendar-invalid stamp the source raises out of `parse`. -/
def schedAt (l : List Char) : Option Int :=
  if "SCHEDULED:".data.isPrefixOf l then
    let r := (l.drop 10).dropWhile isWs
    match r with
    | '<' :: r2 =>
      (match dateAt r2 with
       | some ymdr =>
         (match schedTail ymdr.2.2.2 with
          | some tmOpt =>
            let y := ymdr.1
            let m := ymdr.2.1
            let d := ymdr.2.2.1
            let hm := tmOpt.getD (0, 0)
            if 1 ≤ m && m ≤ 12 && 1 ≤ d && d ≤ daysInMonth y m && hm.1 ≤ 23 && hm.2 ≤ 59 then
              some (civilToMin ⟨y, m, d, hm.1, hm.2⟩)
            else none
          | none => none)
       | none => none)
    | _ => none
  else none

/-- Model of `SCHEDULED_RE.search`: the pattern attempted at every position of
the line. -/
def schedSearch : List Char → Option Int
  | [] => none
  | c :: rest =>
    match schedAt (c :: rest) with
    | some t => some t
    | none => schedSearch rest

/-- Model of `PROPERTY_RE.match` on a stripped line: `:(\w+):\s*(.+)`. -/
def propMatch (l : List Char) : Option (String × String) :=
  match l with
  | ':' :: rest =>
    let w := rest.takeWhile isWordChar
    let r2 := rest.dropWhile isWordChar
    if w = [] then none
    else
      match r2 with
      | ':' :: r3 =>
        let v := r3.dropWhile isWs
        if v = [] then none else some (String.mk w, String.mk v)
      | _ => none
  | _ => none

def upperStr (s : String) : String :=
  String.mk (s.data.map (fun c =>
    if 97 ≤ c.toNat && c.toNat ≤ 122 then Char.ofNat (c.toNat - 32) else c))

def lowerStr (s : String) : String :=
  String.mk (s.data.map (fun c =>
    if 65 ≤ c.toNat && c.toNat ≤ 90 then Char.ofNat (c.toNat + 32) else c))

/-- Body accumulator of the inner parsing loop of `OrgParser.parse`. -/
structure BodyAcc where
  scheduled : Option Int
  platform : String
  draft_id : Option String
  content_lines : List String
  in_properties : Bool
deriving Repr, DecidableEq

def emptyBody : BodyAcc := ⟨none, "twitter", none, [], false⟩

/-- One body line of the inner loop, in the source's check order: `SCHEDULED`
stamp, property-drawer start/end, drawer properties, content (org directives
`#+...` skipped, leading blank lines trimmed). -/
def bodyStep (acc : BodyAcc) (line : String) : BodyAcc :=
  let l := line.data
  match schedSearch l with
  | some t => { acc with scheduled := some t }
  | none =>
    if containsSub ":PROPERTIES:".data l then { acc with in_properties := true }
    else if containsSub ":END:".data l then { acc with in_properties := false }
    else if acc.in_properties then
      match propMatch (stripChars l) with
      | some kv =>
        if upperStr kv.1 == "PLATFORM" then { acc with platform := lowerStr kv.2 }
        else if upperStr kv.1 == "ID" then { acc with draft_id := some kv.2 }
        else acc
      | none => acc
    else
      let stripped := stripChars l
      if stripped ≠ [] || acc.content_lines ≠ [] then
        match stripped with
        | '#' :: '+' :: _ => acc
        | _ => { acc with content_lines := acc.content_lines ++ [line] }
      else acc

def joinNL : List String → String
  | [] => ""
  | [x] => x
  | x :: rest => x ++ "\n" ++ joinNL rest

/-- In-progress draft of the outer parsing loop. -/
structure CurAcc where
  headline : String
  kw : Option String
  pri : Option Char
  line_number : Nat
  body : BodyAcc
deriving Repr, DecidableEq

/-- Close the current draft: a draft whose joined, stripped content is empty
is dropped. -/
def finishDraft (c : CurAcc) : List OrgDraft :=
  let content := String.mk (stripChars (joinNL c.body.content_lines).data)
  if content ≠ "" then
    [⟨c.headline, c.kw.getD "TODO", c.pri, c.body.scheduled, c.body.platform,
      c.body.draft_id, content, c.line_number⟩]
  else []

def startsStar (line : String) : Bool :=
  match line.data with
  | '*' :: _ => true
  | _ => false

/-- The scanning loop of `OrgParser.parse`: any line starting with `*` closes
the current draft's body; a matching 2+-star heading opens a new draft. -/
def parseGo : List String → Nat → Option CurAcc → List OrgDraft
  | [], _, none => []
  | [], _, some c => finishDraft c
  | line :: rest, i, none =>
    (match parseHeadline line with
     | some h => parseGo rest (i + 1) (some ⟨h.2.2, h.1, h.2.1, i, emptyBody⟩)
     | none => parseGo rest (i + 1) none)
  | line :: rest, i, some c =>
    if startsStar line then
      finishDraft c ++
        (match parseHeadline line with
         | some h => parseGo rest (i + 1) (some ⟨h.2.2, h.1, h.2.1, i, emptyBody⟩)
         | none => parseGo rest (i + 1) none)
    else parseGo rest (i + 1) (some { c with body := bodyStep c.body line })

/-- Model of `OrgParser.parse` on the file's lines (`content.split("\n")`). -/
def parse (lines : List String) : List OrgDraft := parseGo lines 0 none

/-- Model of `re.sub(r"^(\*+\s+)", \1 + new_status + " ", line)`: insert the
status after the heading markers when the line starts with stars followed by
whitespace, otherwise leave the line unchanged. -/
def insertAfterStars (line new_status : String) : String :=
  let stars := line.data.takeWhile (fun c => c == '*')
  let rest := line.data.dropWhile (fun c => c == '*')
  let ws := rest.takeWhile isWs
  if stars ≠ [] && ws ≠ [] then
    String.mk (stars ++ ws ++ new_status.data ++ [' '] ++ rest.dropWhile isWs)
  else line

/-- Model of `OrgParser.update_status`: rewrite the draft's heading line —
when the draft carries a status string, by replacing its first occurrence in
the line; otherwise by inserting the new status after the heading markers —
and write the buffer back. -/
def update_status (lines : List String) (draft : OrgDraft) (new_status : String) :
    List String :=
  match lines.get? draft.line_number with
  | none => lines
  | some line =>
    let new_line :=
      if draft.status ≠ "" then replaceFirstStr line draft.status new_status
      else insertAfterStars line new_status
    lines.set draft.line_number new_line

end OrgParser

/-- Model of `OrgDraftManager.get_pending`: drafts with status `TODO`. -/
def get_pending (drafts : List OrgDraft) : List OrgDraft :=
  drafts.filter (fun d => d.status == "TODO")

/-- Model of `OrgDraftManager.get_scheduled`: pending drafts whose scheduled
time lies strictly in the future. -/
def get_scheduled (drafts : List OrgDraft) (now : Int) : List OrgDraft :=
  (get_pending drafts).filter (fun d =>
    match d.scheduled with
    | some t => decide (now < t)
    | none => false)

/-- Insert into a Python-dict association list: an existing key keeps its
position and gets the new value; a new key is appended. -/
def dictInsert {α : Type} (key : String) (val : α) :
    List (String × α) → List (String × α)
  | [] => [(key, val)]
  | (k, v) :: rest =>
    if k == key then (k, val) :: rest else (k, v) :: dictInsert key val rest

/-- Build a Python dict (insertion-ordered, last value wins) from a list of
key-value pairs. -/
def dictOf {α : Type} (ps : List (String × α)) : List (String × α) :=
  ps.foldl (fun acc p => dictInsert p.1 p.2 acc) []

/-- The reconciliation key of a job: `j.get("headline", j.get("id"))`. -/
def jobKey (j : Job) : String :=
  match j.headline with
  | some h => h
  | none => j.id

/-- `file_jobs` of `sync_with_scheduler`: the dict from reconciliation key to
the index (in the loaded list) of the pending job of this file (a Python dict
of references, modelled by indices). -/
def fileJobsDict (filepath : String) (jobs : List Job) : List (String × Nat) :=
  dictOf ((jobs.enum.filter (fun p =>
    p.2.source_file == some filepath && p.2.status == "pending")).map
      (fun p => (jobKey p.2, p.1)))

structure SyncResult where
  success : Bool
  added : List String
  cancelled : List String
  unchanged : List String
deriving Repr, DecidableEq

/-- State threaded through the add loop of `sync_with_scheduler`: results so
far, the remaining (id, draw) generator supply, and the persisted store. -/
structure SyncAcc where
  added : List String
  unchanged : List String
  gens : List (String × Int)
  disk : Store
deriving Repr, DecidableEq

/-- Model of `OrgDraftManager.sync_with_scheduler`.  `drafts` is the parse of
the (unmodified) draft file, `filepath` its path, `gens` supplies the uuid/
randint pairs consumed by the `schedule_post` calls.  Mirrors the source
exactly, including the final `_save_schedule(jobs)` of the stale in-memory
list when any job was cancelled. -/
def sync_with_scheduler (filepath : String) (drafts : List OrgDraft)
    (fluctuation : Int) (fluctuation_bias : String) (now : Int)
    (gens : List (String × Int)) (disk : Store) : SyncResult × Store :=
  let org_scheduled : List (String × OrgDraft) :=
    dictOf ((get_scheduled drafts now).map (fun d => (d.headline, d)))
  let jobs := load_schedule disk
  let file_jobs := fileJobsDict filepath jobs
  let orgKeys := org_scheduled.map (fun p => p.1)
  let fileKeys := file_jobs.map (fun p => p.1)
  -- cancel jobs not in org anymore
  let toCancel := file_jobs.filter (fun p => !(orgKeys.contains p.1))
  let cancelled := toCancel.filterMap (fun p => (jobs.get? p.2).map (fun j => j.id))
  let cancelIdxs := toCancel.map (fun p => p.2)
  let jobsMut := jobs.enum.map (fun p =>
    if cancelIdxs.contains p.1 then { p.2 with status := "cancelled" } else p.2)
  -- add / check org drafts
  let addStep := fun (acc : SyncAcc) (p : String × OrgDraft) =>
    if fileKeys.contains p.1 then { acc with unchanged := acc.unchanged ++ [p.1] }
    else
      let g := acc.gens.headD ("", 0)
      let sp := schedule_post p.2.platform p.2.content
        (strftimeFull (p.2.scheduled.getD 0)) fluctuation fluctuation_bias
        [("source_file", some filepath), ("headline", some p.1), ("draft_id", p.2.draft_id)]
        now g.1 g.2 acc.disk
      { acc with
        added := if sp.1.success then acc.added ++ [p.1] else acc.added,
        gens := acc.gens.tail,
        disk := sp.2 }
  let fin := org_scheduled.foldl addStep ⟨[], [], gens, disk⟩
  -- save cancelled jobs: persists the stale in-memory list when any
  let diskFinal := if cancelled.isEmpty then fin.disk else jobsMut
  ({ success := true, added := fin.added, cancelled := cancelled,
     unchanged := fin.unchanged }, diskFinal)

/- File-stage moves (`org_files.py`).  A path is its list of components; the
`isDir` oracle answers `sibling.exists() and sibling.is_dir()`. -/

abbrev FsPath := List String

def parentDir (p : FsPath) : FsPath := p.dropLast

def fileName (p : FsPath) : String := p.getLastD ""

/-- Model of `_find_target_dir`: the sibling directory of the file's parent
named `target_name` when it exists, else the parent itself when it is already
so named, else `none`. -/
def find_target_dir (isDir : FsPath → Bool) (filepath : FsPath) (target_name : String) :
    Option FsPath :=
  let parent := parentDir filepath
  let sibling := parentDir parent ++ [target_name]
  if isDir sibling then some sibling
  else if fileName parent == target_name then some parent
  else none

/-- Outcome of a move helper: the returned path and the rename performed by
`shutil.move`, if any. -/
structure MoveOutcome where
  ret : Option FsPath
  renamed : Option (FsPath × FsPath)
deriving Repr, DecidableEq

def moveToDir (isDir : FsPath → Bool) (filepath : FsPath) (target_name : String) :
    MoveOutcome :=
  match find_target_dir isDir filepath target_name with
  | none => ⟨none, none⟩
  | some d =>
    if parentDir filepath = d then ⟨some filepath, none⟩
    else ⟨some (d ++ [fileName filepath]), some (filepath, d ++ [fileName filepath])⟩

/-- Model of `move_to_scheduled`. -/
def move_to_scheduled (isDir : FsPath → Bool) (filepath : FsPath) : MoveOutcome :=
  moveToDir isDir filepath "scheduled"

/-- Model of `move_to_posted`. -/
def move_to_posted (isDir : FsPath → Bool) (filepath : FsPath) : MoveOutcome :=
  moveToDir isDir filepath "posted"

/- Concrete inputs used by counterexamples and witnesses. -/

/-- The `source_file set ⇒ headline set` store invariant of the spec. -/
def jobInv (j : Job) : Prop := j.source_file ≠ none → j.headline ≠ none

def defaultJob : Job :=
  { id := "", platform := "", text := "", scheduled_for := 0, created_at := 0,
    status := "", kwargs := [] }

/-- Filesystem oracle with no files at all. -/
def fsNone : String → Bool := fun _ => false

/-- Filesystem oracle where exactly `present.org` exists. -/
def fsPresent : String → Bool := fun s => s == "present.org"

/-- A pending job whose source file is missing (dangling). -/
def c1dangling : Job :=
  { id := "j1", platform := "twitter", text := "t", scheduled_for := 100,
    created_at := 0, status := "pending", kwargs := [],
    source_file := some "gone.org", headline := some "h" }

/-- A pending job whose source file exists. -/
def c1good : Job :=
  { id := "g1", platform := "twitter", text := "t", scheduled_for := 50,
    created_at := 0, status := "pending", kwargs := [],
    source_file := some "present.org", headline := some "h" }

/-- A job already in the terminal status `completed`. -/
def c2done : Job :=
  { id := "done-1", platform := "twitter", text := "t", scheduled_for := 100,
    created_at := 0, status := "completed", kwargs := [] }

/-- A pending job for the cancel witness. -/
def c2pending : Job :=
  { id := "w1", platform := "twitter", text := "t", scheduled_for := 100,
    created_at := 0, status := "pending", kwargs := [] }

def c3path : String := "proj/drafts/f.org"

def c3now : Int := civilToMin ⟨2026, 4, 1, 9, 0⟩

/-- A pending job of the draft file whose headline no longer appears in it. -/
def c3job : Job :=
  { id := "j1", platform := "twitter", text := "old text",
    scheduled_for := civilToMin ⟨2026, 4, 20, 12, 0⟩, created_at := 0,
    status := "pending", kwargs := [], source_file := some c3path,
    headline := some "old" }

/-- The single (future-scheduled, pending) draft of the unmodified file. -/
def c3draft : OrgDraft :=
  ⟨"new", "TODO", none, some (civilToMin ⟨2026, 5, 1, 10, 0⟩), "twitter", none,
   "new content", 0⟩

/-- First sync of the file against the store: cancels `j1` and schedules
`new` in the same run. -/
def c3sync1 : SyncResult × Store :=
  sync_with_scheduler c3path [c3draft] 0 "none" c3now [("id2", 0)] [c3job]

/-- Second sync, with the draft file unmodified, against the store the first
sync persisted. -/
def c3sync2 : SyncResult × Store :=
  sync_with_scheduler c3path [c3draft] 0 "none" c3now [("id3", 0)] c3sync1.2

/-- Client that always succeeds. -/
def c4client : String → String → List (String × Option String) → Except String PostResult :=
  fun _ _ _ => .ok { success := true }

/-- Mover oracle that finds no `posted/` directory. -/
def c4mover : String → Option String := fun _ => none

/-- A pending job that is already due at time 0. -/
def c4job : Job :=
  { id := "d1", platform := "twitter", text := "t", scheduled_for := -5,
    created_at := -10, status := "pending", kwargs := [] }

/-- Store written by a schedule_post call carrying both source_file and
headline kwargs. -/
def c9wStore : Store :=
  (schedule_post "twitter" "txt" "+1h" 0 "none"
    [("source_file", some "g.org"), ("headline", some "H")] 0 "id9" 0 []).2

def c9wJob : Job := c9wStore.headD defaultJob

/-- Directory oracle of a project with `drafts/` and `scheduled/` but no
`posted/`. -/
def c10isDir : FsPath → Bool :=
  fun q => q == ["proj", "drafts"] || q == ["proj", "scheduled"]

def c10file : FsPath := ["proj", "drafts", "a.org"]

/-- The parsed draft of the heading `** TODO Ship it`. -/
def c8wDraft : OrgDraft :=
  ⟨"Ship it", "TODO", none, none, "twitter", none, "b", 0⟩

/- Theorems. -/

/-- Claim C5 (code bug): on the last day of a month, a time-only expression
whose time is not strictly in the future makes `parse_schedule_time` raise
`ValueError: day is out of range for month` (`target.replace(day=now.day+1)`)
instead of rolling over to the first of the next month.  At current time
2026-01-31 11:00, `"10:00"` errors, although 2026-02-01 10:00 — the "tomorrow"
the claim describes — exists and is later than now; one day earlier the same
call rolls to the 31st just fine. -/
theorem C5_month_end_rollover_error :
    parse_schedule_time "10:00" (civilToMin ⟨2026, 1, 31, 11, 0⟩) =
      .error "day is out of range for month" ∧
    civilToMin ⟨2026, 1, 31, 11, 0⟩ < civilToMin ⟨2026, 2, 1, 10, 0⟩ ∧
    parse_schedule_time "10:00" (civilToMin ⟨2026, 1, 30, 11, 0⟩) =
      .ok (civilToMin ⟨2026, 1, 31, 10, 0⟩) := by
  refine ⟨by decide, by decide, by decide⟩

/-- Claim C3 (code bug): sync is not idempotent when one run both cancels and
adds.  On the concrete scenario (store holding pending job `j1` of the file
with stale headline `old`; unmodified draft file containing the single
future-scheduled draft `new`), the first sync reports cancelled `j1` and added
`new`, but its final save persists the pre-add in-memory job list, erasing the
job it just scheduled: the persisted store holds only the cancelled `j1`.  The
second sync therefore adds `new` again instead of returning `added = []`. -/
theorem C3_second_sync_adds_again :
    c3sync1.1.added = ["new"] ∧ c3sync1.1.cancelled = ["j1"] ∧
    c3sync1.2.map Job.id = ["j1"] ∧
    c3sync2.1.added = ["new"] ∧ c3sync2.1.cancelled = [] := by
  refine ⟨by decide, by decide, by decide, by decide, by decide⟩

/-- Claim C6: for every schedule-time string the parser rejects,
`schedule_post` returns `success = false` with an error message, creates no
job and leaves the persisted store untouched. -/
theorem C6_parse_error_no_mutation (platform text schedule_time : String)
    (fluctuation : Int) (bias : String) (kwargs : List (String × Option String))
    (now : Int) (new_id : String) (draw : Int) (st : Store)
    (h : ∀ t, parse_schedule_time schedule_time now ≠ .ok t) :
    (schedule_post platform text schedule_time fluctuation bias kwargs now new_id draw st).1.success = false ∧
    (schedule_post platform text schedule_time fluctuation bias kwargs now new_id draw st).1.job_id = none ∧
    (schedule_post platform text schedule_time fluctuation bias kwargs now new_id draw st).1.error_msg ≠ none ∧
    (schedule_post platform text schedule_time fluctuation bias kwargs now new_id draw st).2 = st := by
  cases hp : parse_schedule_time schedule_time now with
  | error e => simp [schedule_post, hp]
  | ok t => exact absurd hp (h t)

/-- Claim C6 witness: the unparsable string `"xyz"` is rejected and the store
(here seeded with one job) is returned unchanged. -/
theorem C6_witness :
    (schedule_post "twitter" "hello" "xyz" 0 "none" [] 0 "w-id" 0 [c2pending]).1.success = false ∧
    (schedule_post "twitter" "hello" "xyz" 0 "none" [] 0 "w-id" 0 [c2pending]).1.job_id = none ∧
    (schedule_post "twitter" "hello" "xyz" 0 "none" [] 0 "w-id" 0 [c2pending]).1.error_msg ≠ none ∧
    (schedule_post "twitter" "hello" "xyz" 0 "none" [] 0 "w-id" 0 [c2pending]).2 = [c2pending] :=
  C6_parse_error_no_mutation "twitter" "hello" "xyz" 0 "none" [] 0 "w-id" 0 [c2pending]
    (by
      intro t ht
      rw [show parse_schedule_time "xyz" 0 = Except.error "Cannot parse time: xyz" by decide] at ht
      exact Except.noConfusion ht)

/-- Claim C7: for every timestamp, fluctuation bound and randint draw in
`[0, max_minutes]`, early-biased jitter lands in `[dt - max_minutes, dt]`;
consequently `schedule_post` with `bias = "early"` and `fluctuation = N`
returns a `scheduled_for` no later than the parsed original time and at most
`N` minutes before it. -/
theorem C7_early_bias_bounds (dt max_minutes draw : Int)
    (h0 : 0 ≤ draw) (h1 : draw ≤ max_minutes) :
    (dt - max_minutes ≤ add_human_fluctuation dt max_minutes "early" draw ∧
     add_human_fluctuation dt max_minutes "early" draw ≤ dt) ∧
    ∀ (platform text schedule_time : String) (kwargs : List (String × Option String))
      (now : Int) (new_id : String) (st : Store) (t : Int),
      parse_schedule_time schedule_time now = .ok t →
      ∃ sf, (schedule_post platform text schedule_time max_minutes "early" kwargs
               now new_id draw st).1.scheduled_for = some sf ∧
            t - max_minutes ≤ sf ∧ sf ≤ t := by
  have hjit : add_human_fluctuation dt max_minutes "early" draw = dt - draw := by
    simp [add_human_fluctuation]
  constructor
  · rw [hjit]; omega
  · intro platform text schedule_time kwargs now new_id st t hp
    refine ⟨if 0 < max_minutes then t - draw else t, ?_, ?_, ?_⟩
    · simp [schedule_post, hp, add_human_fluctuation]
    · split <;> omega
    · split <;> omega

/-- Claim C7 witness: concrete bounds at `dt = 1000`, `max = 5`, `draw = 3`. -/
theorem C7_witness :
    1000 - 5 ≤ add_human_fluctuation 1000 5 "early" 3 ∧
    add_human_fluctuation 1000 5 "early" 3 ≤ 1000 :=
  (C7_early_bias_bounds 1000 5 3 (by decide) (by decide)).1

theorem truthyStr_ne_none {x : Option String} (h : truthyStr x = true) : x ≠ none := by
  cases x with
  | none => simp [truthyStr] at h
  | some s => simp

/-- Claim C9 counterexample: a `schedule_post` call whose kwargs carry a
`source_file` but no `headline` writes a job with `source_file` set and
`headline` absent, violating the `source_file set ⇒ headline set` invariant. -/
theorem C9_counterexample :
    ((schedule_post "twitter" "hi" "+1h" 0 "none" [("source_file", some "f.org")]
        0 "cafe1234" 0 []).2.map (fun j => (j.source_file, j.headline))) =
      [(some "f.org", none)] := by decide

/-- Claim C9 (amended): `schedule_post` promotes `source_file` and `headline`
from kwargs independently, so the invariant `source_file set ⇒ headline set`
is preserved only for calls whose kwargs carry a truthy `headline` whenever
they carry a truthy `source_file` (as every draft-manager call site does); a
call with `source_file` alone writes a job violating it. -/
theorem C9_invariant_preserved (platform text schedule_time : String)
    (fluctuation : Int) (bias : String) (kwargs : List (String × Option String))
    (now : Int) (new_id : String) (draw : Int) (st : Store)
    (hkw : truthyStr (popKw "source_file" kwargs).1 = true →
           truthyStr (popKw "headline" (popKw "source_file" kwargs).2).1 = true)
    (hst : ∀ j ∈ st, jobInv j) :
    ∀ j ∈ (schedule_post platform text schedule_time fluctuation bias kwargs
             now new_id draw st).2, jobInv j := by
  intro j hj
  cases hp : parse_schedule_time schedule_time now with
  | error e =>
    rw [show (schedule_post platform text schedule_time fluctuation bias kwargs
          now new_id draw st).2 = st by simp [schedule_post, hp]] at hj
    exact hst j hj
  | ok t =>
    simp only [schedule_post, hp, load_schedule] at hj
    rcases List.mem_append.mp hj with hold | hnew
    · exact hst j hold
    · rcases List.mem_singleton.mp hnew with rfl
      intro hsf
      by_cases htr : truthyStr (popKw "source_file" kwargs).1 = true
      · have hhl := hkw htr
        simpa [hhl] using truthyStr_ne_none hhl
      · simp only [Bool.not_eq_true] at htr
        simp [htr] at hsf

/-- Claim C9 witness: a call passing both kwargs yields a store whose head
job satisfies the invariant. -/
theorem C9_witness : jobInv c9wJob :=
  C9_invariant_preserved "twitter" "txt" "+1h" 0 "none"
    [("source_file", some "g.org"), ("headline", some "H")] 0 "id9" 0 []
    (by decide) (by intro j hj; exact absurd hj (List.not_mem_nil j))
    c9wJob (by decide)

theorem cancelFirst_of_not_mem (job_id : String) (st : List Job)
    (h : ∀ k ∈ st, k.id ≠ job_id) : cancelFirst job_id st = none := by
  induction st with
  | nil => rfl
  | cons j rest ih =>
    have hj : j.id ≠ job_id := h j (List.mem_cons_self j rest)
    rw [cancelFirst, if_neg (by simpa using hj),
        ih (fun k hk => h k (List.mem_cons_of_mem j hk))]

theorem cancelFirst_first_match (job_id : String) (pre post : List Job) (j : Job)
    (hpre : ∀ k ∈ pre, k.id ≠ job_id) (hj : j.id = job_id) :
    cancelFirst job_id (pre ++ j :: post) =
      some (pre ++ { j with status := "cancelled" } :: post) := by
  induction pre with
  | nil => simp [cancelFirst, hj]
  | cons p rest ih =>
    have hp : p.id ≠ job_id := hpre p (List.mem_cons_self p rest)
    rw [List.cons_append, cancelFirst, if_neg (by simpa using hp),
        ih (fun k hk => hpre k (List.mem_cons_of_mem p hk))]
    rfl

/-- Claim C2 counterexample: `cancel_scheduled` flips a `completed` — hence
terminal — job to `cancelled`, so a terminal status is not immutable and the
flip is not restricted to pending jobs. -/
theorem C2_counterexample :
    c2done.status = "completed" ∧
    (cancel_scheduled "done-1" [c2done]).1.success = true ∧
    (cancel_scheduled "done-1" [c2done]).2.map Job.status = ["cancelled"] := by
  refine ⟨by decide, by decide, by decide⟩

/-- Claim C2 (amended): `cancel_scheduled` flips the first job whose id
matches to `cancelled` regardless of its current status — terminal statuses
included — leaving every other job untouched; with no matching id it reports
failure and leaves the store unchanged. -/
theorem C2_cancel_by_id (job_id : String) :
    (∀ pre post (j : Job), (∀ k ∈ pre, k.id ≠ job_id) → j.id = job_id →
       cancel_scheduled job_id (pre ++ j :: post) =
         ({ success := true, cancelled := some job_id },
          pre ++ { j with status := "cancelled" } :: post)) ∧
    (∀ st : Store, (∀ k ∈ st, k.id ≠ job_id) →
       cancel_scheduled job_id st =
         ({ success := false, error_msg := some ("Job not found: " ++ job_id) }, st)) := by
  constructor
  · intro pre post j hpre hj
    rw [cancel_scheduled, load_schedule, cancelFirst_first_match job_id pre post j hpre hj]
  · intro st h
    rw [cancel_scheduled, load_schedule, cancelFirst_of_not_mem job_id st h]

/-- Claim C2 witness: cancelling the only (pending) job of a one-job store. -/
theorem C2_witness :
    cancel_scheduled "w1" [c2pending] =
      ({ success := true, cancelled := some "w1" },
       [{ c2pending with status := "cancelled" }]) :=
  (C2_cancel_by_id "w1").1 [] [] c2pending
    (by intro k hk; exact absurd hk (List.not_mem_nil k)) rfl

theorem mem_insertByTime {a j : Job} {l : List Job} (h : a ∈ insertByTime j l) :
    a = j ∨ a ∈ l := by
  induction l with
  | nil => simpa [insertByTime] using h
  | cons k rest ih =>
    rw [insertByTime] at h
    split at h
    · rcases List.mem_cons.mp h with rfl | h2
      · exact Or.inr (List.mem_cons_self _ _)
      · rcases ih h2 with h3 | h3
        · exact Or.inl h3
        · exact Or.inr (List.mem_cons_of_mem _ h3)
    · rcases List.mem_cons.mp h with rfl | h2
      · exact Or.inl rfl
      · exact Or.inr h2

theorem mem_sortByTime {a : Job} {l : List Job} (h : a ∈ sortByTime l) : a ∈ l := by
  induction l with
  | nil => simpa [sortByTime] using h
  | cons j rest ih =>
    rw [sortByTime] at h
    rcases mem_insertByTime h with rfl | h2
    · exact List.mem_cons_self _ _
    · exact List.mem_cons_of_mem _ (ih h2)

theorem no_missing_of_isOrphan_false (fileExists : String → Bool) {j : Job}
    (ho : isOrphan fileExists j = false) :
    j.status = "pending" → ∀ src, j.source_file = some src → src ≠ "" →
      fileExists src = true := by
  intro hp src hsrc hne
  simp [isOrphan, hp, hsrc, hne] at ho
  exact ho

theorem sweep_no_missing (fileExists : String → Bool) (jobs : List Job) :
    ∀ j ∈ (cancel_orphaned_jobs fileExists jobs).1, j.status = "pending" →
      ∀ src, j.source_file = some src → src ≠ "" → fileExists src = true := by
  intro j hj
  rw [cancel_orphaned_jobs] at hj
  simp only [List.mem_map] at hj
  obtain ⟨a, _, rfl⟩ := hj
  by_cases ho : isOrphan fileExists a = true
  · rw [if_pos ho]
    intro hp
    simp at hp
  · rw [if_neg ho]
    exact no_missing_of_isOrphan_false fileExists (Bool.not_eq_true _ ▸ ho)

/-- Claim C1 counterexample: the load operation performs no sweep.  With the
job's source file missing on disk, `load_schedule` returns the dangling
pending job verbatim, and a caller of load such as `cancel_scheduled` (here
with an unknown id) observes and leaves behind a store still holding it —
contradicting the claim that every load-caller sees a swept store. -/
theorem C1_counterexample :
    fsNone "gone.org" = false ∧
    c1dangling.status = "pending" ∧ c1dangling.source_file = some "gone.org" ∧
    load_schedule [c1dangling] = [c1dangling] ∧
    (cancel_scheduled "other-id" [c1dangling]).2 = [c1dangling] := by
  refine ⟨rfl, rfl, rfl, rfl, by decide⟩

/-- Claim C1 (amended): the orphan sweep lives in `list_scheduled`, not in
the load operation.  Every `list_scheduled` call persists a store — and
returns a listing — containing no pending job whose set `source_file` is
missing on disk; the other load callers observe the raw store. -/
theorem C1_list_scheduled_sweeps (fileExists : String → Bool) (full : Bool) (st : Store) :
    (∀ j ∈ (list_scheduled fileExists full st).2, j.status = "pending" →
       ∀ src, j.source_file = some src → src ≠ "" → fileExists src = true) ∧
    (∀ j ∈ (list_scheduled fileExists full st).1, j.status = "pending" →
       ∀ src, j.source_file = some src → src ≠ "" → fileExists src = true) := by
  constructor
  · intro j hj
    have hj2 : j ∈ (if (cancel_orphaned_jobs fileExists st).2
        then (cancel_orphaned_jobs fileExists st).1 else st) := by
      rw [list_scheduled] at hj
      split at hj <;> simpa using hj
    split at hj2
    · exact sweep_no_missing fileExists st j hj2
    · rename_i hflag
      have hfalse : st.any (isOrphan fileExists) = false := by
        rw [cancel_orphaned_jobs] at hflag
        simpa using hflag
      have ho : isOrphan fileExists j = false := by
        rcases Bool.eq_false_iff.mp hfalse with _
        by_contra hcon
        simp only [Bool.not_eq_false] at hcon
        exact absurd (List.any_eq_true.mpr ⟨j, hj2, hcon⟩) (by simp [hfalse])
      exact no_missing_of_isOrphan_false fileExists ho
  · intro j hj
    have hj2 : j ∈ sortByTime (cancel_orphaned_jobs fileExists st).1 ∨
        j ∈ sortByTime ((cancel_orphaned_jobs fileExists st).1.filter
          (fun k => k.status == "pending")) := by
      rw [list_scheduled] at hj
      split at hj
      · exact Or.inl (by simpa using hj)
      · exact Or.inr (by simpa using hj)
    have hj3 : j ∈ (cancel_orphaned_jobs fileExists st).1 := by
      rcases hj2 with h | h
      · exact mem_sortByTime h
      · exact (List.mem_filter.mp (mem_sortByTime h)).1
    exact sweep_no_missing fileExists st j hj3

/-- Claim C1 witness: a pending job whose source file exists survives the
sweep and is listed, whence its file indeed exists. -/
theorem C1_witness : fsPresent "present.org" = true :=
  (C1_list_scheduled_sweeps fsPresent false [c1good]).2 c1good (by decide)
    (by decide) "present.org" (by decide) (by decide)

theorem parent_eq_sibling_of_name {p : FsPath} {target : String}
    (htgt : target ≠ "") (hname : fileName (parentDir p) = target) :
    parentDir (parentDir p) ++ [target] = parentDir p := by
  rcases hpp : parentDir p with _ | _
  · rw [hpp] at hname
    simp [fileName] at hname
    exact absurd hname.symm htgt
  · rw [← hname, hpp, fileName, parentDir]
    rw [List.getLastD_eq_getLast?, List.getLast?_eq_getLast _ (by simp)]
    exact List.dropLast_append_getLast (by simp)


theorem moveToDir_spec (isDir : FsPath → Bool) (p : FsPath) (target : String)
    (htgt : target ≠ "") :
    (isDir (parentDir p) = true →
       isDir (parentDir (parentDir p) ++ [target]) = false →
       moveToDir isDir p target = ⟨none, none⟩) ∧
    (fileName (parentDir p) = target → isDir (parentDir p) = true →
       moveToDir isDir p target = ⟨some p, none⟩) ∧
    (∀ src dst, (moveToDir isDir p target).renamed = some (src, dst) →
       src = p ∧ dst = parentDir (parentDir p) ++ [target, fileName p] ∧
       isDir (parentDir (parentDir p) ++ [target]) = true ∧
       parentDir p ≠ parentDir (parentDir p) ++ [target]) := by
  refine ⟨?_, ?_, ?_⟩
  · intro hpar hsib
    have hname : (fileName (parentDir p) == target) = false := by
      rw [beq_eq_false_iff_ne]
      intro heq0
      have heq := parent_eq_sibling_of_name htgt heq0
      rw [heq, hpar] at hsib
      exact Bool.noConfusion hsib
    have hfind : find_target_dir isDir p target = none := by
      rw [find_target_dir, if_neg (by simp [hsib]), if_neg (by simp [hname])]
    unfold moveToDir
    rw [hfind]
  · intro hname hpar
    have heq := parent_eq_sibling_of_name htgt hname
    by_cases hsib : isDir (parentDir (parentDir p) ++ [target]) = true
    · have hfind : find_target_dir isDir p target = some (parentDir p) := by
        rw [find_target_dir, if_pos hsib, heq]
      unfold moveToDir
      rw [hfind]
      simp
    · have hfind : find_target_dir isDir p target = some (parentDir p) := by
        rw [find_target_dir, if_neg hsib, if_pos (by simpa using hname)]
      unfold moveToDir
      rw [hfind]
      simp
  · intro src dst hmv
    unfold moveToDir at hmv
    by_cases hsib : isDir (parentDir (parentDir p) ++ [target]) = true
    · have hfind : find_target_dir isDir p target =
          some (parentDir (parentDir p) ++ [target]) := by
        rw [find_target_dir, if_pos hsib]
      rw [hfind] at hmv
      by_cases hpd : parentDir p = parentDir (parentDir p) ++ [target]
      · simp only [if_pos hpd] at hmv
        simp at hmv
      · simp only [if_neg hpd] at hmv
        simp only [Option.some.injEq, Prod.mk.injEq] at hmv
        refine ⟨hmv.1.symm, ?_, hsib, hpd⟩
        rw [← hmv.2]
        simp
    · by_cases hname : (fileName (parentDir p) == target) = true
      · have hfind : find_target_dir isDir p target = some (parentDir p) := by
          rw [find_target_dir, if_neg hsib, if_pos hname]
        rw [hfind] at hmv
        simp at hmv
      · have hfind : find_target_dir isDir p target = none := by
          rw [find_target_dir, if_neg hsib, if_neg hname]
        rw [hfind] at hmv
        simp at hmv

/-- Claim C10: for both stage moves — `move_to_scheduled` and
`move_to_posted` — with a consistent filesystem (the file's parent is an
existing directory): when no sibling directory with the target name exists
the call returns `none` and performs no rename; when the file already resides
in the target directory the call returns the input path unchanged and
performs no rename; and a rename happens only into an existing sibling target
directory distinct from the file's parent, moving the file itself there. -/
theorem C10_stage_moves (isDir : FsPath → Bool) (p : FsPath) :
    ((isDir (parentDir p) = true →
        isDir (parentDir (parentDir p) ++ ["scheduled"]) = false →
        move_to_scheduled isDir p = ⟨none, none⟩) ∧
     (fileName (parentDir p) = "scheduled" → isDir (parentDir p) = true →
        move_to_scheduled isDir p = ⟨some p, none⟩) ∧
     (∀ src dst, (move_to_scheduled isDir p).renamed = some (src, dst) →
        src = p ∧ dst = parentDir (parentDir p) ++ ["scheduled", fileName p] ∧
        isDir (parentDir (parentDir p) ++ ["scheduled"]) = true ∧
        parentDir p ≠ parentDir (parentDir p) ++ ["scheduled"])) ∧
    ((isDir (parentDir p) = true →
        isDir (parentDir (parentDir p) ++ ["posted"]) = false →
        move_to_posted isDir p = ⟨none, none⟩) ∧
     (fileName (parentDir p) = "posted" → isDir (parentDir p) = true →
        move_to_posted isDir p = ⟨some p, none⟩) ∧
     (∀ src dst, (move_to_posted isDir p).renamed = some (src, dst) →
        src = p ∧ dst = parentDir (parentDir p) ++ ["posted", fileName p] ∧
        isDir (parentDir (parentDir p) ++ ["posted"]) = true ∧
        parentDir p ≠ parentDir (parentDir p) ++ ["posted"])) :=
  ⟨moveToDir_spec isDir p "scheduled" (by decide),
   moveToDir_spec isDir p "posted" (by decide)⟩

/-- Claim C10 witness: in a project with `drafts/` and `scheduled/` but no
`posted/`, `move_to_posted` of a drafts file returns `none` without renaming,
while `move_to_scheduled` renames the file into `scheduled/`. -/
theorem C10_witness :
    move_to_posted c10isDir c10file = ⟨none, none⟩ ∧
    (move_to_scheduled c10isDir c10file).renamed =
      some (c10file, ["proj", "scheduled", "a.org"]) := by
  refine ⟨(C10_stage_moves c10isDir c10file).2.1 (by decide) (by decide), by decide⟩

theorem moveCompletedFile_status (fileExists : String → Bool)
    (mover : String → Option String) (acc : Store) (sf : String) (k : Nat) :
    ((moveCompletedFile fileExists mover acc sf)[k]?).map Job.status =
      (acc[k]?).map Job.status := by
  rw [moveCompletedFile]
  split
  · split
    · split
      · split
        · rw [List.getElem?_map]
          cases acc[k]? with
          | none => rfl
          | some j =>
            simp only [Option.map_some']
            congr 1
            split <;> rfl
        · rfl
      · rfl
    · rfl
  · rfl

theorem foldl_move_status (fileExists : String → Bool)
    (mover : String → Option String) (files : List String) (acc : Store) (k : Nat) :
    ((files.foldl (moveCompletedFile fileExists mover) acc)[k]?).map Job.status =
      (acc[k]?).map Job.status := by
  induction files generalizing acc with
  | nil => rfl
  | cons f rest ih => rw [List.foldl_cons, ih, moveCompletedFile_status]

/-- Claim C4: `run_due_jobs` invokes a platform client only for pending jobs
whose scheduled time has arrived; every such due pending job ends `completed`
(client reported success) or `failed` (client reported failure, or raised —
the model's client returns `Except` and `run_due_jobs` is a total function,
so no exception escapes); and a pending job scheduled in the future keeps
status `pending`. -/
theorem C4_run_due_jobs
    (clientPost : String → String → List (String × Option String) → Except String PostResult)
    (fileExists : String → Bool) (mover : String → Option String)
    (now : Int) (st : Store) :
    (∀ c ∈ (run_due_jobs clientPost fileExists mover now st).2.2,
       ∃ j ∈ st, j.id = c ∧ j.status = "pending" ∧ j.scheduled_for ≤ now) ∧
    (∀ (k : Nat) (j : Job), st[k]? = some j → j.status = "pending" → j.scheduled_for ≤ now →
       ((run_due_jobs clientPost fileExists mover now st).2.1[k]?).map Job.status =
         some (match clientPost j.platform j.text j.kwargs with
               | .ok r => if r.success then "completed" else "failed"
               | .error _ => "failed")) ∧
    (∀ (k : Nat) (j : Job), st[k]? = some j → j.status = "pending" → now < j.scheduled_for →
       ((run_due_jobs clientPost fileExists mover now st).2.1[k]?).map Job.status =
         some "pending") := by
  refine ⟨?_, ?_, ?_⟩
  · intro c hc
    simp only [run_due_jobs, load_schedule] at hc
    rw [List.mem_filterMap] at hc
    obtain ⟨j, hj, hcond⟩ := hc
    by_cases hdue : (j.status == "pending" && decide (j.scheduled_for ≤ now)) = true
    · rw [if_pos hdue] at hcond
      have hdue2 := hdue
      simp only [Bool.and_eq_true, beq_iff_eq, decide_eq_true_eq] at hdue2
      exact ⟨j, hj, by simpa using hcond, hdue2.1, hdue2.2⟩
    · rw [if_neg hdue] at hcond
      exact Option.noConfusion hcond
  · intro k j hk hp hd
    have hdue : (j.status == "pending" && decide (j.scheduled_for ≤ now)) = true := by
      simp [hp, hd]
    simp only [run_due_jobs, load_schedule]
    rw [foldl_move_status, List.getElem?_map, hk]
    simp only [Option.map_some']
    rw [if_pos hdue]
    cases hc : clientPost j.platform j.text j.kwargs with
    | ok r => simp [execute_job, hc]
    | error e => simp [execute_job, hc]
  · intro k j hk hp hf
    have hdue : (j.status == "pending" && decide (j.scheduled_for ≤ now)) = false := by
      simp [hp]
      omega
    simp only [run_due_jobs, load_schedule]
    rw [foldl_move_status, List.getElem?_map, hk]
    simp only [Option.map_some']
    rw [if_neg (by simp [hdue])]
    rw [hp]

/-- Claim C4 witness: a due pending job executed by an always-succeeding
client ends `completed`. -/
theorem C4_witness :
    ((run_due_jobs c4client fsNone c4mover 0 [c4job]).2.1[0]?).map Job.status =
      some "completed" := by
  have h := (C4_run_due_jobs c4client fsNone c4mover 0 [c4job]).2.1 0 c4job rfl rfl
    (by decide)
  simpa [c4client] using h

theorem isPrefixOf_append_self (pat suf : List Char) :
    pat.isPrefixOf (pat ++ suf) = true :=
  List.isPrefixOf_iff_prefix.mpr (List.prefix_append pat suf)

theorem replaceFirstL_at_first (pre pat suf new : List Char)
    (h : ∀ k, k < pre.length → pat.isPrefixOf ((pre ++ pat ++ suf).drop k) = false) :
    replaceFirstL (pre ++ pat ++ suf) pat new = pre ++ new ++ suf := by
  induction pre with
  | nil =>
    simp only [List.nil_append]
    rw [replaceFirstL.eq_def, if_pos (isPrefixOf_append_self pat suf)]
    rw [List.drop_left]
  | cons c pre ih =>
    have h0 : pat.isPrefixOf (c :: (pre ++ pat ++ suf)) = false := by
      simpa using h 0 (by simp)
    have hgoal : ((c :: pre) ++ pat ++ suf) = c :: (pre ++ pat ++ suf) := by simp
    rw [hgoal, replaceFirstL.eq_def, if_neg (by simp only [Bool.not_eq_true]; simpa using h0)]
    show c :: replaceFirstL (pre ++ pat ++ suf) pat new = (c :: pre) ++ new ++ suf
    rw [ih (fun k hk => by
      simpa using h (k + 1) (by simpa using Nat.succ_lt_succ hk))]
    simp

/-- Claim C8 counterexample: for a parsed draft whose heading carries no
explicit status keyword, `status` defaults to `"TODO"`, so `update_status`
takes the replace branch — it rewrites the first occurrence of `TODO` inside
the headline text instead of inserting a status token after the heading
markers (first file), and when the heading contains no `TODO` at all it
changes nothing (second file). -/
theorem C8_counterexample :
    OrgParser.parse ["** Fix the TODO handling", "Some body"] =
      [⟨"Fix the TODO handling", "TODO", none, none, "twitter", none, "Some body", 0⟩] ∧
    OrgParser.update_status ["** Fix the TODO handling", "Some body"]
        ⟨"Fix the TODO handling", "TODO", none, none, "twitter", none, "Some body", 0⟩
        "DONE" =
      ["** Fix the DONE handling", "Some body"] ∧
    OrgParser.parse ["** Plain headline", "Body text"] =
      [⟨"Plain headline", "TODO", none, none, "twitter", none, "Body text", 0⟩] ∧
    OrgParser.update_status ["** Plain headline", "Body text"]
        ⟨"Plain headline", "TODO", none, none, "twitter", none, "Body text", 0⟩
        "DONE" =
      ["** Plain headline", "Body text"] := by
  refine ⟨by decide, by decide, by decide, by decide⟩


/-- Claim C8 (amended): `update_status` rewrites only the draft's heading
line, leaving every other line untouched; for a draft with a nonempty status
string (every parsed draft — the keyword defaults to `TODO`) the heading line
is rewritten by replacing the first occurrence of the status string anywhere
in the line.  When that first occurrence is the explicit status keyword this
is the claim's replacement behaviour; a heading without an explicit keyword
gets no token inserted and may have its headline text altered (see the
counterexample). -/
theorem C8_update_status (lines : List String) (draft : OrgDraft) (new_status : String) :
    (∀ i : Nat, i ≠ draft.line_number →
       (OrgParser.update_status lines draft new_status).get? i = lines.get? i) ∧
    (∀ (line : String) (pre suf : List Char),
       lines.get? draft.line_number = some line →
       draft.status ≠ "" →
       line.data = pre ++ draft.status.data ++ suf →
       (∀ k, k < pre.length →
          draft.status.data.isPrefixOf (line.data.drop k) = false) →
       (OrgParser.update_status lines draft new_status).get? draft.line_number =
         some (String.mk (pre ++ new_status.data ++ suf))) := by
  constructor
  · intro i hi
    rw [OrgParser.update_status]
    cases hl : lines.get? draft.line_number with
    | none => rfl
    | some line => exact List.get?_set_ne _ _ (Ne.symm hi)
  · intro line pre suf hl hs hsplit hfirst
    rw [OrgParser.update_status, hl]
    simp only [if_pos hs]
    rw [List.get?_set_eq, hl]
    show some (replaceFirstStr line draft.status new_status) =
      some (String.mk (pre ++ new_status.data ++ suf))
    congr 1
    rw [replaceFirstStr]
    congr 1
    rw [hsplit]
    exact replaceFirstL_at_first pre draft.status.data suf new_status.data
      (fun k hk => by rw [← hsplit]; exact hfirst k hk)

/-- Claim C8 witness: replacing the explicit `TODO` keyword of the heading
`** TODO Ship it` yields `** DONE Ship it`, the body line untouched. -/
theorem C8_witness :
    (OrgParser.update_status ["** TODO Ship it", "b"] c8wDraft "DONE").get? 0 =
      some (String.mk ("** ".data ++ "DONE".data ++ " Ship it".data)) :=
  (C8_update_status ["** TODO Ship it", "b"] c8wDraft "DONE").2 "** TODO Ship it"
    "** ".data " Ship it".data (by decide) (by decide) (by decide) (by decide)
